import Mathlib

/-!
Shallow embedding of the declarative render-graph assembly core of the
repository: the pipeline-node / pipeline-sequence abstraction of
`crates/bevy_core_pipeline/src/pipelining.rs`, the core-2d settings and
sequencers of `crates/bevy_core_pipeline/src/core_2d/graph.rs` and
`crates/bevy_core_pipeline/src/core_2d/pipeline.rs`, and the
`RenderGraphApp` operations of `crates/bevy_render/src/render_graph/app.rs`.

Machine-level Rust details that do not affect the value-level semantics of
the verified claims (boxing, trait objects, borrow errors in the draft
code) are erased; side-effecting operations are embedded as explicit state
passing over an `Option RenderGraph` (the presence or absence of the
`RenderGraph` resource in the `World`), returning `Except` for the
panicking `expect` calls and a `Nat` counting emitted warnings.
-/

/-- Embeds `generate_default_pipeline_node_label!` from `pipelining.rs` in the
case where no explicit label literal is supplied.  The macro expands to
`stringify!(paste! { [<Ident:snake:lower>] })`; since Rust `stringify!` does
not expand the inner `paste!` invocation, the produced string is the literal
token text of the unexpanded `paste!` call, with the declaration identifier
embedded verbatim.  The exact whitespace that `stringify!` inserts between
tokens is a rendering detail; the theorems below rely only on the facts that
the result embeds the identifier verbatim (hence distinct identifiers give
distinct labels) and that it is not the snake-case form of the identifier. -/
def generate_default_pipeline_node_label (ident : String) : String :=
  "paste! \x7b [<" ++ ident ++ " : snake : lower>] \x7d"

/-- Modelled from the spec: the label that the spec says a declaration derives
when no explicit label is supplied, namely the case-normalized (snake_case,
lower-cased) form of the declaration identifier.  This is the spec-side
definition used to compare against `generate_default_pipeline_node_label`. -/
def snake_lower_identifier (ident : String) : String :=
  String.mk (ident.toList.foldl
    (fun acc c =>
      if c.isUpper then
        if acc.isEmpty then acc ++ [c.toLower] else acc ++ ['_', c.toLower]
      else acc ++ [c])
    [])

/-- A pipeline node as declared by `pipeline_node!(Ident, NodeType)`: a stable
textual label (the graph-node identity) paired with a node factory.  The
factory of the source is `NodeFactory<N>`, a stateless binding of the node
type `N`; it is embedded by the name of the bound node type, which is all the
factory carries. -/
structure PipelineNode where
  label : String
  nodeType : String
deriving DecidableEq

/-- Embeds `PipelineSequence` from `pipelining.rs`. -/
structure PipelineSequence where
  pipeline_label : String
  node_sequence : List PipelineNode
  label_sequence : List String
deriving DecidableEq

/-- Embeds `PipelineSequence::new`: the label sequence is derived by mapping
`label()` over the node sequence. -/
def PipelineSequence.new (pipeline_label : String)
    (node_sequence : List PipelineNode) : PipelineSequence :=
  { pipeline_label := pipeline_label
    node_sequence := node_sequence
    label_sequence := node_sequence.map PipelineNode.label }

/-- Name of the sub-graph of the core 2d pipeline (`CORE_2D`). -/
def CORE_2D : String := "core_2d"

/-- Label constant generated by `pipeline_node!(MainPass, MainPass2dNode)`. -/
def MAIN_PASS : String := generate_default_pipeline_node_label "MainPass"

/-- Label constant generated by `pipeline_node!(Bloom, ViewNodeRunner<BloomNode>)`. -/
def BLOOM : String := generate_default_pipeline_node_label "Bloom"

/-- Label constant generated by `pipeline_node!(Tonemapping, ViewNodeRunner<TonemappingNode>)`. -/
def TONEMAPPING : String := generate_default_pipeline_node_label "Tonemapping"

/-- Label constant generated by `pipeline_node!(Fxaa, FxaaNode)`. -/
def FXAA : String := generate_default_pipeline_node_label "Fxaa"

/-- Label constant generated by `pipeline_node!(MsaaWriteback, MsaaWritebackNode)`. -/
def MSAA_WRITEBACK : String := generate_default_pipeline_node_label "MsaaWriteback"

/-- Label constant generated by
`pipeline_node!(EndMainPassPostProcessing, EmptyNode)`. -/
def END_MAIN_PASS_POST_PROCESSING : String :=
  generate_default_pipeline_node_label "EndMainPassPostProcessing"

/-- Label constant generated by
`pipeline_node!(Upscaling, ViewNodeRunner<UpscalingNode>)`. -/
def UPSCALING : String := generate_default_pipeline_node_label "Upscaling"

/-- The `MainPass` pipeline node of `core_2d/graph.rs`. -/
def mainPassNode : PipelineNode := ⟨MAIN_PASS, "MainPass2dNode"⟩

/-- The `Bloom` pipeline node of `core_2d/graph.rs`. -/
def bloomNode : PipelineNode := ⟨BLOOM, "ViewNodeRunner<BloomNode>"⟩

/-- The `Tonemapping` pipeline node of `core_2d/graph.rs`. -/
def tonemappingNode : PipelineNode := ⟨TONEMAPPING, "ViewNodeRunner<TonemappingNode>"⟩

/-- The `Fxaa` pipeline node of `core_2d/graph.rs`. -/
def fxaaNode : PipelineNode := ⟨FXAA, "FxaaNode"⟩

/-- The `MsaaWriteback` pipeline node of `core_2d/graph.rs`. -/
def msaaWritebackNode : PipelineNode := ⟨MSAA_WRITEBACK, "MsaaWritebackNode"⟩

/-- The `EndMainPassPostProcessing` pipeline node of `core_2d/graph.rs`. -/
def endMainPassPostProcessingNode : PipelineNode :=
  ⟨END_MAIN_PASS_POST_PROCESSING, "EmptyNode"⟩

/-- The `Upscaling` pipeline node of `core_2d/graph.rs`. -/
def upscalingNode : PipelineNode := ⟨UPSCALING, "ViewNodeRunner<UpscalingNode>"⟩

/-- Association-list lookup over the label-to-bool mapping, embedding
`HashMap::get` (which observes only key equality). -/
def lookupBool : List (String × Bool) → String → Option Bool
  | [], _ => none
  | (k, v) :: rest, label => if k = label then some v else lookupBool rest label

/-- Association-list insertion embedding `HashMap::insert`: replaces the
binding when the key is present (returning no information here; the old value
is read off separately via `lookupBool`), appends a fresh binding otherwise. -/
def insertBool : List (String × Bool) → String → Bool → List (String × Bool)
  | [], label, value => [(label, value)]
  | (k, v) :: rest, label, value =>
    if k = label then (k, value) :: rest else (k, v) :: insertBool rest label value

/-- Embeds `Core2dSettings` of `core_2d/graph.rs`: a newtype over a
`HashMap<&'static str, bool>`, embedded as an association list (only `get`
and `insert` are ever used on it, so the list order is unobservable apart
from key equality). -/
structure Core2dSettings where
  map : List (String × Bool)
deriving DecidableEq

/-- Embeds `Core2dSettings::get_bool`: `self.0.get(label).copied().unwrap_or(true)`. -/
def Core2dSettings.get_bool (s : Core2dSettings) (label : String) : Bool :=
  (lookupBool s.map label).getD true

/-- Embeds `Core2dSettings::set_bool`: `self.0.insert(label, value)` stores
`value` under `label` and evaluates to the previously stored value, which is
`none` when the label was absent (`HashMap::insert` returns `None` then). -/
def Core2dSettings.set_bool (s : Core2dSettings) (label : String) (value : Bool) :
    Option Bool × Core2dSettings :=
  (lookupBool s.map label, ⟨insertBool s.map label value⟩)

/-- Embeds `Core2dSettings::default`: tonemapping, bloom and msaa writeback
are mapped to `true`. -/
def Core2dSettings.defaultSettings : Core2dSettings :=
  ⟨[(TONEMAPPING, true), (BLOOM, true), (MSAA_WRITEBACK, true)]⟩

/-- Embeds the loop body of the function generated by
`test_sequence_inclusion!`: iterate over the pre-defined test labels; when a
test label equals the node label and the settings map has an entry for it,
return that entry; otherwise keep scanning, defaulting to `true`. -/
def testLabels (s : Core2dSettings) (lbl : String) : List String → Bool
  | [] => true
  | t :: rest =>
    if t = lbl then
      match lookupBool s.map t with
      | some b => b
      | none => testLabels s lbl rest
    else testLabels s lbl rest

/-- Embeds `Core2dSettings::test_core_sequence_inclusion`, generated by
`test_sequence_inclusion!(core, tonemapping, bloom)`: the pre-defined test
labels are `TONEMAPPING` and `BLOOM`, in that order. -/
def test_core_sequence_inclusion (s : Core2dSettings) (node : PipelineNode) : Bool :=
  testLabels s node.label [TONEMAPPING, BLOOM]

/-- The node catalogue of `create_simple_sequencer!("core 2d", core; ...)`:
`MainPass, Bloom, Tonemapping, Fxaa, EndMainPassPostProcessing, Upscaling`. -/
def coreCatalogue : List PipelineNode :=
  [mainPassNode, bloomNode, tonemappingNode, fxaaNode,
   endMainPassPostProcessingNode, upscalingNode]

/-- Embeds the body pattern generated by `create_simple_sequencer!` for an
arbitrary catalogue: filter the declared node sequence with the
settings-driven inclusion test, preserving order, and wrap the result with
`PipelineSequence::new`. -/
def build_sequence (pipeline_label : String) (catalogue : List PipelineNode)
    (s : Core2dSettings) : PipelineSequence :=
  PipelineSequence.new pipeline_label
    (catalogue.filter (fun x => test_core_sequence_inclusion s x))

/-- Embeds `create_core_sequence` as generated by
`create_simple_sequencer!("core 2d", core; MainPass, Bloom, Tonemapping,
Fxaa, EndMainPassPostProcessing, Upscaling; Core2dSettings)`. -/
def create_core_sequence (s : Core2dSettings) : PipelineSequence :=
  build_sequence CORE_2D coreCatalogue s

/-- Embeds `Core2dPipelineSettings` of `core_2d/pipeline.rs`. -/
structure Core2dPipelineSettings where
  pipeline_label : String
  tonemapping : Bool
  tonemapping_label : String
  bloom : Bool
  bloom_label : String
deriving DecidableEq

/-- Embeds `Core2dPipelineSettings::test_inclusion`: match the node label
against the stored tonemapping and bloom labels, defaulting to `true`. -/
def Core2dPipelineSettings.test_inclusion (s : Core2dPipelineSettings)
    (node : PipelineNode) : Bool :=
  if s.tonemapping_label = node.label then s.tonemapping
  else if s.bloom_label = node.label then s.bloom
  else true

/-- The fixed catalogue of `create_core_pipeline_sequence` in
`core_2d/pipeline.rs`: `MainPass, Bloom, Tonemapping,
EndMainPassPostProcessing, Upscaling`. -/
def corePipelineCatalogue : List PipelineNode :=
  [mainPassNode, bloomNode, tonemappingNode,
   endMainPassPostProcessingNode, upscalingNode]

/-- Embeds `create_core_pipeline_sequence` of `core_2d/pipeline.rs`: filter
the default sequence by `test_inclusion` and wrap with
`PipelineSequence::new` under the settings-supplied pipeline label. -/
def create_core_pipeline_sequence (settings : Core2dPipelineSettings) : PipelineSequence :=
  PipelineSequence.new settings.pipeline_label
    (corePipelineCatalogue.filter (fun x => settings.test_inclusion x))

/-- A named sub-graph of the render graph, reduced to the observables the
claims are about: its label-keyed node set and its directed edge set.  In the
source a sub-graph is itself a `RenderGraph`; the claims address only one
nesting level, so the inner graph is embedded by its node and edge lists.
Stored nodes are embedded as `(label, node type name)` pairs. -/
structure SubGraph where
  nodes : List (String × String)
  edges : List (String × String)
deriving DecidableEq

/-- Association-list lookup over the name-to-sub-graph mapping, embedding
`HashMap::get` on `RenderGraph::sub_graphs`. -/
def lookupSG : List (String × SubGraph) → String → Option SubGraph
  | [], _ => none
  | (k, g) :: rest, name => if k = name then some g else lookupSG rest name

/-- Replace the binding of `name` (first occurrence) by `g`, embedding the
in-place mutation performed through `get_sub_graph_mut`. -/
def updateSG : List (String × SubGraph) → String → SubGraph → List (String × SubGraph)
  | [], _, _ => []
  | (k, g0) :: rest, name, g =>
    if k = name then (k, g) :: rest else (k, g0) :: updateSG rest name g

/-- Embeds the `RenderGraph` resource: its mapping from sub-graph names to
sub-graphs. -/
structure RenderGraph where
  sub_graphs : List (String × SubGraph)
deriving DecidableEq

/-- Embeds `RenderGraph::get_sub_graph_mut` as a lookup; the mutation is
carried out by `RenderGraph.update_sub_graph`.  Modelled from the spec for
the lookup semantics (the method body is not under `src/`): a sub-graph is
found exactly when one was stored under that name. -/
def RenderGraph.get_sub_graph (rg : RenderGraph) (name : String) : Option SubGraph :=
  lookupSG rg.sub_graphs name

/-- Writes back a mutated sub-graph under its name, completing the embedding
of a mutation through `get_sub_graph_mut`. -/
def RenderGraph.update_sub_graph (rg : RenderGraph) (name : String) (g : SubGraph) :
    RenderGraph :=
  ⟨updateSG rg.sub_graphs name g⟩

/-- Modelled from the spec: `add_node(sub_graph_name, label, stage)` inserts a
constructed stage under a label (the method body is not under `src/`).  The
duplicate-label policy is unspecified by the spec; insertion is modelled as an
append, and no theorem below depends on the duplicate case. -/
def SubGraph.add_node (g : SubGraph) (node_name node : String) : SubGraph :=
  { g with nodes := g.nodes ++ [(node_name, node)] }

/-- The consecutive pairs of a label list: the directed edges that
`add_edges_between` derives from an ordered label chain. -/
def consecPairs : List String → List (String × String)
  | [] => []
  | [_] => []
  | a :: b :: rest => (a, b) :: consecPairs (b :: rest)

/-- Modelled from the spec: `add_edges(sub_graph_name, ordered_labels)` adds a
directed edge between each consecutive pair of the submitted chain and no
other edges (the method body of `add_edges_between` is not under `src/`). -/
def SubGraph.add_edges_between (g : SubGraph) (labels : List String) : SubGraph :=
  { g with edges := g.edges ++ consecPairs labels }

/-- Modelled from the spec: `add_edge(sub_graph_name, from, to)` adds the
single directed edge `from -> to` (the method body of `add_node_edge` is not
under `src/`). -/
def SubGraph.add_node_edge (g : SubGraph) (out_label in_label : String) : SubGraph :=
  { g with edges := g.edges ++ [(out_label, in_label)] }

/-- Modelled from the spec: `add_sub_graph(name)` is "idempotent-intent
creation of an empty named sub-graph"; the spec explicitly leaves the
behavior on re-adding an existing name open.  To keep the embedding total it
is modelled as replace-or-append; no theorem below draws any conclusion about
the re-adding case from this modelling choice. -/
def RenderGraph.add_sub_graph (rg : RenderGraph) (name : String) (g : SubGraph) :
    RenderGraph :=
  match lookupSG rg.sub_graphs name with
  | some _ => ⟨updateSG rg.sub_graphs name g⟩
  | none => ⟨rg.sub_graphs ++ [(name, g)]⟩

/-- Panic message of the `expect` call in `app.rs`, parameterized by the
operation name interpolated into it. -/
def rgNotFound (opName : String) : String :=
  "RenderGraph not found. Make sure you are using " ++ opName ++ " on the RenderApp"

/-- Embeds `RenderGraphApp::add_node_to_render_graph` from `app.rs`.  The app
state is the optional `RenderGraph` resource of the `World`; `expect` on a
missing resource is embedded as `Except.error` with the panic message of the
source; the warning side channel is embedded as a count of emitted warnings.
When the named sub-graph is missing, the source logs exactly one warning and
mutates nothing. -/
def add_node_to_render_graph (app : Option RenderGraph)
    (sub_graph_name node_name node : String) : Except String (Option RenderGraph × Nat) :=
  match app with
  | none => .error (rgNotFound "add_render_graph_node")
  | some rg =>
    match rg.get_sub_graph sub_graph_name with
    | some g =>
      .ok (some (rg.update_sub_graph sub_graph_name (g.add_node node_name node)), 0)
    | none => .ok (some rg, 1)

/-- Embeds `RenderGraphApp::add_render_graph_node`: constructs the node via
`FromWorld` (embedded by the supplied node type name) and delegates to
`add_node_to_render_graph`. -/
def add_render_graph_node (app : Option RenderGraph)
    (sub_graph_name node_name node : String) : Except String (Option RenderGraph × Nat) :=
  add_node_to_render_graph app sub_graph_name node_name node

/-- Embeds `RenderGraphApp::add_render_graph_edges` from `app.rs`. -/
def add_render_graph_edges (app : Option RenderGraph) (sub_graph_name : String)
    (edges : List String) : Except String (Option RenderGraph × Nat) :=
  match app with
  | none => .error (rgNotFound "add_render_graph_edges")
  | some rg =>
    match rg.get_sub_graph sub_graph_name with
    | some g =>
      .ok (some (rg.update_sub_graph sub_graph_name (g.add_edges_between edges)), 0)
    | none => .ok (some rg, 1)

/-- Embeds `RenderGraphApp::add_render_graph_edge` from `app.rs`. -/
def add_render_graph_edge (app : Option RenderGraph) (sub_graph_name : String)
    (output_edge input_edge : String) : Except String (Option RenderGraph × Nat) :=
  match app with
  | none => .error (rgNotFound "add_render_graph_edge")
  | some rg =>
    match rg.get_sub_graph sub_graph_name with
    | some g =>
      .ok (some (rg.update_sub_graph sub_graph_name (g.add_node_edge output_edge input_edge)), 0)
    | none => .ok (some rg, 1)

/-- Embeds `RenderGraphApp::add_render_sub_graph` from `app.rs`: unwraps the
resource (panicking when absent) and stores a fresh default (empty) graph
under the name via `RenderGraph::add_sub_graph`. -/
def add_render_sub_graph (app : Option RenderGraph) (sub_graph_name : String) :
    Except String (Option RenderGraph × Nat) :=
  match app with
  | none => .error (rgNotFound "add_render_sub_graph")
  | some rg => .ok (some (rg.add_sub_graph sub_graph_name ⟨[], []⟩), 0)

/-- Embeds `PipelineNode::add_node` of `pipelining.rs`: create the node via
the factory, then insert it under the label of the pipeline node. -/
def PipelineNode.add_node (n : PipelineNode) (app : Option RenderGraph)
    (sub_graph_name : String) : Except String (Option RenderGraph × Nat) :=
  add_node_to_render_graph app sub_graph_name n.label n.nodeType

/-- Embeds the node-insertion loop of `PipelineSequence::insert_into_sub_graph`:
insert each pipeline node in order, threading the app state and accumulating
warnings. -/
def insertNodesLoop : List PipelineNode → Option RenderGraph → String →
    Except String (Option RenderGraph × Nat)
  | [], app, _ => .ok (app, 0)
  | n :: rest, app, sub =>
    match n.add_node app sub with
    | .error e => .error e
    | .ok (app1, w1) =>
      match insertNodesLoop rest app1 sub with
      | .error e => .error e
      | .ok (app2, w2) => .ok (app2, w1 + w2)

/-- Embeds `PipelineSequence::insert_into_sub_graph`: insert every node of the
sequence, then submit the single ordered chain
`existing_root? ++ label_sequence ++ existing_target?` to
`add_render_graph_edges`. -/
def PipelineSequence.insert_into_sub_graph (seq : PipelineSequence)
    (app : Option RenderGraph) (sub_graph_name : String)
    (existing_root existing_target : Option String) :
    Except String (Option RenderGraph × Nat) :=
  match insertNodesLoop seq.node_sequence app sub_graph_name with
  | .error e => .error e
  | .ok (app1, w1) =>
    match add_render_graph_edges app1 sub_graph_name
        (existing_root.toList ++ seq.label_sequence ++ existing_target.toList) with
    | .error e => .error e
    | .ok (app2, w2) => .ok (app2, w1 + w2)

/-- The `(label, node type)` pairs a list of pipeline nodes inserts into a
sub-graph. -/
def nodePairs (ns : List PipelineNode) : List (String × String) :=
  ns.map (fun n => (n.label, n.nodeType))

theorem testLabels_of_not_mem (s : Core2dSettings) (lbl : String) :
    ∀ ts : List String, lbl ∉ ts → testLabels s lbl ts = true := by
  intro ts
  induction ts with
  | nil => intro _; rfl
  | cons t rest ih =>
    intro h
    have ht : t ≠ lbl := fun he => h (he ▸ List.mem_cons_self t rest)
    have hrest : lbl ∉ rest := fun hm => h (List.mem_cons_of_mem t hm)
    simp only [testLabels, if_neg ht]
    exact ih hrest

theorem testLabels_of_lookup_none (s : Core2dSettings) (lbl : String)
    (h : lookupBool s.map lbl = none) :
    ∀ ts : List String, testLabels s lbl ts = true := by
  intro ts
  induction ts with
  | nil => rfl
  | cons t rest ih =>
    by_cases ht : t = lbl
    · subst ht
      simp only [testLabels, if_pos rfl, h]
      exact ih
    · simp only [testLabels, if_neg ht]
      exact ih

theorem testLabels_head_some (s : Core2dSettings) (lbl : String) (rest : List String)
    (b : Bool) (h : lookupBool s.map lbl = some b) :
    testLabels s lbl (lbl :: rest) = b := by
  simp [testLabels, h]

theorem testLabels_single_of_ne_false (s : Core2dSettings) (lbl : String)
    (h : lookupBool s.map lbl ≠ some false) :
    testLabels s lbl [lbl] = true := by
  cases hb : lookupBool s.map lbl with
  | none => simp [testLabels, hb]
  | some b =>
    cases b with
    | false => exact absurd hb h
    | true => simp [testLabels, hb]

theorem lookupBool_insertBool_self (label : String) (value : Bool) :
    ∀ m : List (String × Bool), lookupBool (insertBool m label value) label = some value := by
  intro m
  induction m with
  | nil => simp [insertBool, lookupBool]
  | cons p rest ih =>
    obtain ⟨k, v⟩ := p
    by_cases hk : k = label
    · simp [insertBool, lookupBool, hk]
    · simp only [insertBool, if_neg hk, lookupBool, if_neg hk]
      exact ih

theorem lookupBool_insertBool_ne (label l2 : String) (value : Bool) (h : l2 ≠ label) :
    ∀ m : List (String × Bool), lookupBool (insertBool m label value) l2 = lookupBool m l2 := by
  intro m
  induction m with
  | nil =>
    have hne : label ≠ l2 := fun he => h he.symm
    simp [insertBool, lookupBool, hne]
  | cons p rest ih =>
    obtain ⟨k, v⟩ := p
    by_cases hk : k = label
    · subst hk
      have hkl : k ≠ l2 := fun he => h he.symm
      simp [insertBool, lookupBool, hkl]
    · simp only [insertBool, if_neg hk, lookupBool]
      by_cases hk2 : k = l2
      · simp [hk2]
      · simp only [if_neg hk2]
        exact ih

/-- C1: building a sequence through the settings-driven filter (the
`create_simple_sequencer!` pattern, and likewise `create_core_pipeline_sequence`)
yields a subsequence of the catalogue in the same relative order: the kept
node sequence is a sublist of the catalogue, and there is a strictly
order-preserving index embedding sending each kept position to its catalogue
position. -/
theorem build_sequence_order_preserving (pl : String) (catalogue : List PipelineNode)
    (s : Core2dSettings) (ps : Core2dPipelineSettings) :
    (List.Sublist (build_sequence pl catalogue s).node_sequence catalogue ∧
      ∃ f : ℕ ↪o ℕ, ∀ ix : ℕ,
        (build_sequence pl catalogue s).node_sequence.get? ix = catalogue.get? (f ix)) ∧
    (List.Sublist (create_core_pipeline_sequence ps).node_sequence corePipelineCatalogue ∧
      ∃ f : ℕ ↪o ℕ, ∀ ix : ℕ,
        (create_core_pipeline_sequence ps).node_sequence.get? ix =
          corePipelineCatalogue.get? (f ix)) := by
  constructor
  · have hsub : List.Sublist (build_sequence pl catalogue s).node_sequence catalogue :=
      List.filter_sublist catalogue
    exact ⟨hsub, List.sublist_iff_exists_orderEmbedding_get?_eq.mp hsub⟩
  · have hsub : List.Sublist (create_core_pipeline_sequence ps).node_sequence corePipelineCatalogue :=
      List.filter_sublist corePipelineCatalogue
    exact ⟨hsub, List.sublist_iff_exists_orderEmbedding_get?_eq.mp hsub⟩

/-- C4: a settings value with an empty mapping keeps every stage of any
catalogue, and any node whose label is absent from the settings mapping
passes the inclusion test. -/
theorem build_sequence_default_inclusion (pl : String) (catalogue : List PipelineNode)
    (s : Core2dSettings) :
    (s.map = [] → build_sequence pl catalogue s = PipelineSequence.new pl catalogue) ∧
    (∀ n : PipelineNode, lookupBool s.map n.label = none →
      test_core_sequence_inclusion s n = true) := by
  constructor
  · intro h
    have hall : ∀ n ∈ catalogue, test_core_sequence_inclusion s n = true :=
      fun n _ => testLabels_of_lookup_none s n.label (by rw [h]; rfl) _
    simp only [build_sequence]
    rw [List.filter_eq_self.mpr (fun a ha => hall a ha)]
  · intro n h
    exact testLabels_of_lookup_none s n.label h _

/-- Witness for C4 at the concrete core catalogue and the empty settings map. -/
theorem build_sequence_default_inclusion_witness :
    build_sequence "p" coreCatalogue ⟨[]⟩ = PipelineSequence.new "p" coreCatalogue ∧
    test_core_sequence_inclusion ⟨[]⟩ fxaaNode = true :=
  ⟨(build_sequence_default_inclusion "p" coreCatalogue ⟨[]⟩).1 rfl,
   (build_sequence_default_inclusion "p" coreCatalogue ⟨[]⟩).2 fxaaNode rfl⟩

/-- C6: `PipelineSequence::new` leaves the node sequence as given and derives
the label sequence index-by-index: both lists have the same length and the
label at every index is exactly the label of the node at that index.  All
embedded operations on a sequence are pure, so the correspondence persists
for the lifetime of the value. -/
theorem pipeline_sequence_label_alignment (pl : String) (ns : List PipelineNode) :
    (PipelineSequence.new pl ns).node_sequence = ns ∧
    (PipelineSequence.new pl ns).label_sequence.length =
      (PipelineSequence.new pl ns).node_sequence.length ∧
    ∀ i : ℕ, (PipelineSequence.new pl ns).label_sequence.get? i =
      ((PipelineSequence.new pl ns).node_sequence.get? i).map PipelineNode.label := by
  refine ⟨rfl, by simp [PipelineSequence.new], fun i => ?_⟩
  simp [PipelineSequence.new, List.get?_eq_getElem?, List.getElem?_map]

/-- C7: evaluation of the default-label derivation at the failing input.
Deriving twice from the identifier `MainPass` is deterministic, and the
spec-side snake-case normalization of `MainPass` is `main_pass`; but the
label the code derives is the stringified unexpanded `paste!` invocation,
which differs from the case-normalized identifier (`stringify!` does not
expand the inner `paste!`).  Distinct identifiers still receive distinct
labels, which is why the settings-driven filtering keeps working. -/
theorem default_label_determinism_and_not_snake_case :
    generate_default_pipeline_node_label "MainPass" =
      generate_default_pipeline_node_label "MainPass" ∧
    snake_lower_identifier "MainPass" = "main_pass" ∧
    generate_default_pipeline_node_label "MainPass" ≠ snake_lower_identifier "MainPass" ∧
    TONEMAPPING ≠ BLOOM := by
  exact ⟨rfl, by decide, by decide, by decide⟩

/-- C8 counterexample: on settings with an empty mapping, `set_bool` under a
previously absent label returns `none` (the `HashMap::insert` result), not
the default `true` that the claim says is returned for an absent label. -/
theorem set_bool_missing_label_counterexample :
    (Core2dSettings.set_bool ⟨[]⟩ BLOOM false).1 = none ∧
    (Core2dSettings.set_bool ⟨[]⟩ BLOOM false).1 ≠
      some (Core2dSettings.get_bool ⟨[]⟩ BLOOM) := by
  exact ⟨rfl, by decide⟩

/-- C8 as amended: `get_bool` returns the stored boolean when the label is
present and `true` when absent; `set_bool` stores the value under the label
(leaving every other label unchanged) and returns the previously stored
value when the label was present, and `none` (no value) when it was absent. -/
theorem settings_get_set_contract (s : Core2dSettings) (label l2 : String) (value : Bool) :
    (lookupBool s.map label = none → s.get_bool label = true) ∧
    (∀ b : Bool, lookupBool s.map label = some b → s.get_bool label = b) ∧
    (s.set_bool label value).1 = lookupBool s.map label ∧
    lookupBool (s.set_bool label value).2.map label = some value ∧
    (l2 ≠ label → lookupBool (s.set_bool label value).2.map l2 = lookupBool s.map l2) := by
  refine ⟨?_, ?_, rfl, ?_, ?_⟩
  · intro h
    simp [Core2dSettings.get_bool, h]
  · intro b h
    simp [Core2dSettings.get_bool, h]
  · exact lookupBool_insertBool_self label value s.map
  · intro h
    exact lookupBool_insertBool_ne label l2 value h s.map

/-- Witness for C8 as amended, at the empty settings and the default
settings. -/
theorem settings_get_set_contract_witness :
    Core2dSettings.get_bool ⟨[]⟩ FXAA = true ∧
    Core2dSettings.get_bool Core2dSettings.defaultSettings BLOOM = true ∧
    lookupBool (Core2dSettings.set_bool Core2dSettings.defaultSettings BLOOM false).2.map FXAA =
      lookupBool Core2dSettings.defaultSettings.map FXAA :=
  ⟨(settings_get_set_contract ⟨[]⟩ FXAA FXAA true).1 rfl,
   (settings_get_set_contract Core2dSettings.defaultSettings BLOOM FXAA true).2.1 true (by decide),
   (settings_get_set_contract Core2dSettings.defaultSettings BLOOM FXAA false).2.2.2.2 (by decide)⟩

/-- C5: when the render graph holds no sub-graph under the given name,
`add_node_to_render_graph`, `add_render_graph_edges` and
`add_render_graph_edge` leave the whole render graph (hence every sub-graph
node set and edge set) unchanged, emit exactly one warning per call, and
return successfully instead of panicking. -/
theorem missing_sub_graph_no_op (rg : RenderGraph) (sub node_name node a b : String)
    (labels : List String) (h : rg.get_sub_graph sub = none) :
    add_node_to_render_graph (some rg) sub node_name node = .ok (some rg, 1) ∧
    add_render_graph_edges (some rg) sub labels = .ok (some rg, 1) ∧
    add_render_graph_edge (some rg) sub a b = .ok (some rg, 1) := by
  refine ⟨?_, ?_, ?_⟩
  · simp [add_node_to_render_graph, h]
  · simp [add_render_graph_edges, h]
  · simp [add_render_graph_edge, h]

/-- Witness for C5: a render graph holding only an unrelated sub-graph. -/
theorem missing_sub_graph_no_op_witness :
    add_node_to_render_graph (some ⟨[("other", ⟨[], []⟩)]⟩) CORE_2D "n" "N" =
      .ok (some ⟨[("other", ⟨[], []⟩)]⟩, 1) ∧
    add_render_graph_edges (some ⟨[("other", ⟨[], []⟩)]⟩) CORE_2D ["a", "b"] =
      .ok (some ⟨[("other", ⟨[], []⟩)]⟩, 1) ∧
    add_render_graph_edge (some ⟨[("other", ⟨[], []⟩)]⟩) CORE_2D "a" "b" =
      .ok (some ⟨[("other", ⟨[], []⟩)]⟩, 1) :=
  missing_sub_graph_no_op ⟨[("other", ⟨[], []⟩)]⟩ CORE_2D "n" "N" "a" "b" ["a", "b"]
    (by decide)

/-- C10: every `RenderGraphApp` operation panics (embedded as `Except.error`
with the panic message of the source `expect`) when the `World` holds no
`RenderGraph` resource, and an operation can only return successfully (in
particular reach the non-fatal missing-sub-graph warning path) when the
resource is present. -/
theorem missing_render_graph_resource_fatal (sub node_name node a b : String)
    (labels : List String) :
    add_render_sub_graph none sub = .error (rgNotFound "add_render_sub_graph") ∧
    add_render_graph_node none sub node_name node =
      .error (rgNotFound "add_render_graph_node") ∧
    add_node_to_render_graph none sub node_name node =
      .error (rgNotFound "add_render_graph_node") ∧
    add_render_graph_edges none sub labels = .error (rgNotFound "add_render_graph_edges") ∧
    add_render_graph_edge none sub a b = .error (rgNotFound "add_render_graph_edge") ∧
    (∀ (app : Option RenderGraph) r, add_node_to_render_graph app sub node_name node = .ok r →
      app ≠ none) ∧
    (∀ (app : Option RenderGraph) r, add_render_graph_edges app sub labels = .ok r →
      app ≠ none) ∧
    (∀ (app : Option RenderGraph) r, add_render_graph_edge app sub a b = .ok r →
      app ≠ none) := by
  refine ⟨rfl, rfl, rfl, rfl, rfl, ?_, ?_, ?_⟩
  · intro app r hok
    cases app with
    | none => exact absurd hok (by simp [add_node_to_render_graph])
    | some rg => exact Option.some_ne_none rg
  · intro app r hok
    cases app with
    | none => exact absurd hok (by simp [add_render_graph_edges])
    | some rg => exact Option.some_ne_none rg
  · intro app r hok
    cases app with
    | none => exact absurd hok (by simp [add_render_graph_edge])
    | some rg => exact Option.some_ne_none rg

/-- Witness for C10: the five operations fail on a world without the
resource, and the warning path taken on an empty render graph implies the
resource was present. -/
theorem missing_render_graph_resource_fatal_witness :
    add_render_sub_graph none CORE_2D = .error (rgNotFound "add_render_sub_graph") ∧
    (some (⟨[]⟩ : RenderGraph) ≠ none) :=
  ⟨(missing_render_graph_resource_fatal CORE_2D "n" "N" "a" "b" ["a"]).1,
   (missing_render_graph_resource_fatal CORE_2D "n" "N" "a" "b" ["a"]).2.2.2.2.2.1
     (some ⟨[]⟩) (some ⟨[]⟩, 1) rfl⟩

theorem lookupSG_updateSG_self (name : String) (g g0 : SubGraph) :
    ∀ m : List (String × SubGraph), lookupSG m name = some g0 →
      lookupSG (updateSG m name g) name = some g := by
  intro m
  induction m with
  | nil => intro h; simp [lookupSG] at h
  | cons p rest ih =>
    obtain ⟨k, g1⟩ := p
    intro h
    by_cases hk : k = name
    · simp [updateSG, lookupSG, hk]
    · simp only [updateSG, if_neg hk, lookupSG, if_neg hk] at h ⊢
      exact ih h

theorem lookupSG_updateSG_ne (name o : String) (g : SubGraph) (h : o ≠ name) :
    ∀ m : List (String × SubGraph), lookupSG (updateSG m name g) o = lookupSG m o := by
  intro m
  induction m with
  | nil => rfl
  | cons p rest ih =>
    obtain ⟨k, g1⟩ := p
    by_cases hk : k = name
    · subst hk
      have hko : k ≠ o := fun he => h he.symm
      simp [updateSG, lookupSG, hko]
    · simp only [updateSG, if_neg hk, lookupSG]
      by_cases hko : k = o
      · simp [hko]
      · simp only [if_neg hko]
        exact ih

theorem insertNodesLoop_present (sub : String) :
    ∀ (ns : List PipelineNode) (rg : RenderGraph) (g : SubGraph),
      rg.get_sub_graph sub = some g →
      ∃ rg2 : RenderGraph, insertNodesLoop ns (some rg) sub = .ok (some rg2, 0) ∧
        rg2.get_sub_graph sub = some ⟨g.nodes ++ nodePairs ns, g.edges⟩ ∧
        ∀ o, o ≠ sub → rg2.get_sub_graph o = rg.get_sub_graph o := by
  intro ns
  induction ns with
  | nil =>
    intro rg g h
    refine ⟨rg, rfl, ?_, fun o _ => rfl⟩
    simpa [nodePairs] using h
  | cons n rest ih =>
    intro rg g h
    have hstep : n.add_node (some rg) sub =
        .ok (some (rg.update_sub_graph sub (g.add_node n.label n.nodeType)), 0) := by
      simp [PipelineNode.add_node, add_node_to_render_graph, h]
    have h1 : (rg.update_sub_graph sub (g.add_node n.label n.nodeType)).get_sub_graph sub =
        some (g.add_node n.label n.nodeType) :=
      lookupSG_updateSG_self sub (g.add_node n.label n.nodeType) g rg.sub_graphs h
    obtain ⟨rg2, hloop, hsub2, hother⟩ :=
      ih (rg.update_sub_graph sub (g.add_node n.label n.nodeType))
        (g.add_node n.label n.nodeType) h1
    refine ⟨rg2, ?_, ?_, ?_⟩
    · simp [insertNodesLoop, hstep, hloop]
    · rw [hsub2]
      simp [SubGraph.add_node, nodePairs]
    · intro o ho
      rw [hother o ho]
      exact lookupSG_updateSG_ne sub o (g.add_node n.label n.nodeType) ho rg.sub_graphs

/-- C2: inserting a pipeline sequence into an existing sub-graph inserts each
stage under its label and submits exactly the ordered chain
`existing_root? ++ label_sequence ++ existing_target?`, adding a directed
edge between each consecutive pair of that chain and no other edge, leaving
every other sub-graph untouched.  In particular the chain of an empty
sequence with both anchors yields the single edge between the anchors, and a
single stage without anchors, or nothing at all, yields no edges. -/
theorem insert_into_sub_graph_edge_chain (seq : PipelineSequence) (rg : RenderGraph)
    (sub : String) (root target : Option String) (g : SubGraph)
    (h : rg.get_sub_graph sub = some g) :
    (∃ rg2 : RenderGraph,
        seq.insert_into_sub_graph (some rg) sub root target = .ok (some rg2, 0) ∧
        rg2.get_sub_graph sub = some ⟨g.nodes ++ nodePairs seq.node_sequence,
          g.edges ++ consecPairs (root.toList ++ seq.label_sequence ++ target.toList)⟩ ∧
        ∀ o, o ≠ sub → rg2.get_sub_graph o = rg.get_sub_graph o) ∧
    (∀ a b : String,
      consecPairs ((some a).toList ++ ([] : List String) ++ (some b).toList) = [(a, b)]) ∧
    (∀ x : String,
      consecPairs ((none : Option String).toList ++ [x] ++ (none : Option String).toList) = []) ∧
    consecPairs ((none : Option String).toList ++ ([] : List String) ++
      (none : Option String).toList) = [] := by
  refine ⟨?_, fun a b => rfl, fun x => rfl, rfl⟩
  obtain ⟨rg1, hloop, hsub1, hother1⟩ :=
    insertNodesLoop_present sub seq.node_sequence rg g h
  have hedges : add_render_graph_edges (some rg1) sub
      (root.toList ++ seq.label_sequence ++ target.toList) =
      .ok (some (rg1.update_sub_graph sub
        (SubGraph.add_edges_between ⟨g.nodes ++ nodePairs seq.node_sequence, g.edges⟩
          (root.toList ++ seq.label_sequence ++ target.toList))), 0) := by
    simp [add_render_graph_edges, hsub1]
  refine ⟨rg1.update_sub_graph sub
    (SubGraph.add_edges_between ⟨g.nodes ++ nodePairs seq.node_sequence, g.edges⟩
      (root.toList ++ seq.label_sequence ++ target.toList)), ?_, ?_, ?_⟩
  · simp only [PipelineSequence.insert_into_sub_graph, hloop, hedges]
  · have hself := lookupSG_updateSG_self sub
      (SubGraph.add_edges_between ⟨g.nodes ++ nodePairs seq.node_sequence, g.edges⟩
        (root.toList ++ seq.label_sequence ++ target.toList))
      ⟨g.nodes ++ nodePairs seq.node_sequence, g.edges⟩ rg1.sub_graphs hsub1
    rw [show (rg1.update_sub_graph sub
        (SubGraph.add_edges_between ⟨g.nodes ++ nodePairs seq.node_sequence, g.edges⟩
          (root.toList ++ seq.label_sequence ++ target.toList))).get_sub_graph sub =
        lookupSG (updateSG rg1.sub_graphs sub
          (SubGraph.add_edges_between ⟨g.nodes ++ nodePairs seq.node_sequence, g.edges⟩
            (root.toList ++ seq.label_sequence ++ target.toList))) sub from rfl, hself]
    rfl
  · intro o ho
    have h2 := lookupSG_updateSG_ne sub o
      (SubGraph.add_edges_between ⟨g.nodes ++ nodePairs seq.node_sequence, g.edges⟩
        (root.toList ++ seq.label_sequence ++ target.toList)) ho rg1.sub_graphs
    calc (rg1.update_sub_graph sub
          (SubGraph.add_edges_between ⟨g.nodes ++ nodePairs seq.node_sequence, g.edges⟩
            (root.toList ++ seq.label_sequence ++ target.toList))).get_sub_graph o
        = rg1.get_sub_graph o := h2
      _ = rg.get_sub_graph o := hother1 o ho

/-- Witness for C2: a one-stage sequence spliced between anchors `A` and `B`
inside a render graph whose `core_2d` sub-graph exists and is empty. -/
theorem insert_into_sub_graph_edge_chain_witness :
    ∃ rg2 : RenderGraph,
      (PipelineSequence.new CORE_2D [⟨"x", "XN"⟩]).insert_into_sub_graph
          (some ⟨[(CORE_2D, ⟨[], []⟩)]⟩) CORE_2D (some "A") (some "B") =
        .ok (some rg2, 0) ∧
      rg2.get_sub_graph CORE_2D = some ⟨[] ++ nodePairs [⟨"x", "XN"⟩],
        [] ++ consecPairs ((some "A").toList ++
          (PipelineSequence.new CORE_2D [⟨"x", "XN"⟩]).label_sequence ++
          (some "B").toList)⟩ ∧
      ∀ o, o ≠ CORE_2D →
        rg2.get_sub_graph o = RenderGraph.get_sub_graph ⟨[(CORE_2D, ⟨[], []⟩)]⟩ o :=
  (insert_into_sub_graph_edge_chain (PipelineSequence.new CORE_2D [⟨"x", "XN"⟩])
    ⟨[(CORE_2D, ⟨[], []⟩)]⟩ CORE_2D (some "A") (some "B") ⟨[], []⟩ (by decide)).1

theorem testLabels_cons_ne (s : Core2dSettings) (lbl t : String) (rest : List String)
    (h : t ≠ lbl) : testLabels s lbl (t :: rest) = testLabels s lbl rest := by
  simp [testLabels, h]

/-- The default core-2d settings after `set_bool(FXAA, false)`: the label of
the `Fxaa` catalogue stage is mapped to `false`, every other entry is the
default. -/
def fxaaOffSettings : Core2dSettings :=
  (Core2dSettings.defaultSettings.set_bool FXAA false).2

/-- C3 counterexample: with the `Fxaa` label set to `false`, the built core
sequence still contains the `Fxaa` stage and equals the full catalogue,
because the generated inclusion test only consults the pre-defined labels
`TONEMAPPING` and `BLOOM`; so setting the label of exactly one catalogue
stage to false does not in general remove that stage. -/
theorem core_sequence_untested_label_counterexample :
    (create_core_sequence fxaaOffSettings).node_sequence = coreCatalogue ∧
    (create_core_sequence fxaaOffSettings).node_sequence ≠
      coreCatalogue.filter (fun n => n.label != FXAA) ∧
    fxaaNode ∈ (create_core_sequence fxaaOffSettings).node_sequence := by
  refine ⟨by decide, by decide, by decide⟩

/-- C3 as amended: for the core-2d sequencer, setting exactly one of the
settings-tested labels (`TONEMAPPING` or `BLOOM`) to `false` (with the other
tested label not set to `false`) removes exactly that stage and no others,
and the consecutive-pair edge chain then connects the former neighbors of
the removed stage directly; labels outside the tested set are ignored by the
filter (see the counterexample). -/
theorem core_sequence_tested_label_optout (s : Core2dSettings) :
    (lookupBool s.map TONEMAPPING = some false → lookupBool s.map BLOOM ≠ some false →
      (create_core_sequence s).node_sequence =
        [mainPassNode, bloomNode, fxaaNode, endMainPassPostProcessingNode, upscalingNode] ∧
      (BLOOM, FXAA) ∈ consecPairs (create_core_sequence s).label_sequence) ∧
    (lookupBool s.map BLOOM = some false → lookupBool s.map TONEMAPPING ≠ some false →
      (create_core_sequence s).node_sequence =
        [mainPassNode, tonemappingNode, fxaaNode, endMainPassPostProcessingNode,
          upscalingNode] ∧
      (MAIN_PASS, TONEMAPPING) ∈ consecPairs (create_core_sequence s).label_sequence) := by
  constructor
  · intro htm hbl
    have hmp : test_core_sequence_inclusion s mainPassNode = true :=
      testLabels_of_not_mem s MAIN_PASS [TONEMAPPING, BLOOM] (by decide)
    have hblm : test_core_sequence_inclusion s bloomNode = true := by
      show testLabels s BLOOM [TONEMAPPING, BLOOM] = true
      rw [testLabels_cons_ne s BLOOM TONEMAPPING [BLOOM] (by decide)]
      exact testLabels_single_of_ne_false s BLOOM hbl
    have htmm : test_core_sequence_inclusion s tonemappingNode = false :=
      testLabels_head_some s TONEMAPPING [BLOOM] false htm
    have hfx : test_core_sequence_inclusion s fxaaNode = true :=
      testLabels_of_not_mem s FXAA [TONEMAPPING, BLOOM] (by decide)
    have hem : test_core_sequence_inclusion s endMainPassPostProcessingNode = true :=
      testLabels_of_not_mem s END_MAIN_PASS_POST_PROCESSING [TONEMAPPING, BLOOM] (by decide)
    have hup : test_core_sequence_inclusion s upscalingNode = true :=
      testLabels_of_not_mem s UPSCALING [TONEMAPPING, BLOOM] (by decide)
    have hfilter : coreCatalogue.filter (fun x => test_core_sequence_inclusion s x) =
        [mainPassNode, bloomNode, fxaaNode, endMainPassPostProcessingNode, upscalingNode] := by
      simp [coreCatalogue, List.filter_cons, hmp, hblm, htmm, hfx, hem, hup]
    refine ⟨hfilter, ?_⟩
    show (BLOOM, FXAA) ∈ consecPairs
      ((coreCatalogue.filter (fun x => test_core_sequence_inclusion s x)).map
        PipelineNode.label)
    rw [hfilter]
    decide
  · intro hbl htm
    have hmp : test_core_sequence_inclusion s mainPassNode = true :=
      testLabels_of_not_mem s MAIN_PASS [TONEMAPPING, BLOOM] (by decide)
    have htmm : test_core_sequence_inclusion s tonemappingNode = true := by
      show testLabels s TONEMAPPING [TONEMAPPING, BLOOM] = true
      cases hb : lookupBool s.map TONEMAPPING with
      | none =>
        exact testLabels_of_lookup_none s TONEMAPPING hb [TONEMAPPING, BLOOM]
      | some b =>
        cases b with
        | false => exact absurd hb htm
        | true => exact testLabels_head_some s TONEMAPPING [BLOOM] true hb
    have hblm : test_core_sequence_inclusion s bloomNode = false := by
      show testLabels s BLOOM [TONEMAPPING, BLOOM] = false
      rw [testLabels_cons_ne s BLOOM TONEMAPPING [BLOOM] (by decide)]
      exact testLabels_head_some s BLOOM [] false hbl
    have hfx : test_core_sequence_inclusion s fxaaNode = true :=
      testLabels_of_not_mem s FXAA [TONEMAPPING, BLOOM] (by decide)
    have hem : test_core_sequence_inclusion s endMainPassPostProcessingNode = true :=
      testLabels_of_not_mem s END_MAIN_PASS_POST_PROCESSING [TONEMAPPING, BLOOM] (by decide)
    have hup : test_core_sequence_inclusion s upscalingNode = true :=
      testLabels_of_not_mem s UPSCALING [TONEMAPPING, BLOOM] (by decide)
    have hfilter : coreCatalogue.filter (fun x => test_core_sequence_inclusion s x) =
        [mainPassNode, tonemappingNode, fxaaNode, endMainPassPostProcessingNode,
          upscalingNode] := by
      simp [coreCatalogue, List.filter_cons, hmp, hblm, htmm, hfx, hem, hup]
    refine ⟨hfilter, ?_⟩
    show (MAIN_PASS, TONEMAPPING) ∈ consecPairs
      ((coreCatalogue.filter (fun x => test_core_sequence_inclusion s x)).map
        PipelineNode.label)
    rw [hfilter]
    decide

/-- Witness for C3 as amended: settings mapping only the tonemapping label to
false remove exactly the tonemapping stage, and settings mapping only the
bloom label to false remove exactly the bloom stage. -/
theorem core_sequence_tested_label_optout_witness :
    (create_core_sequence ⟨[(TONEMAPPING, false)]⟩).node_sequence =
      [mainPassNode, bloomNode, fxaaNode, endMainPassPostProcessingNode, upscalingNode] ∧
    (create_core_sequence ⟨[(BLOOM, false)]⟩).node_sequence =
      [mainPassNode, tonemappingNode, fxaaNode, endMainPassPostProcessingNode,
        upscalingNode] :=
  ⟨((core_sequence_tested_label_optout ⟨[(TONEMAPPING, false)]⟩).1 (by decide) (by decide)).1,
   ((core_sequence_tested_label_optout ⟨[(BLOOM, false)]⟩).2 (by decide) (by decide)).1⟩
